import Mathlib

/-!
Verification development for the ValutaTrade Hub currency-trading simulator.

Shallow embedding of the core data model and operations:
  * money and exchange rates are embedded as exact rationals (`ℚ`);
    the Python sources store balances as binary floats, which the
    development treats as the exact decimal the source writes down;
  * ISO-8601 timestamps are embedded as integer seconds (`ℤ`), so that
    `datetime.fromisoformat` and `datetime.now()` become plain integers
    and interval comparison is integer comparison;
  * JSON dictionaries are embedded as association lists
    (`List (String × β)`) with first-match lookup and
    overwrite-or-append update, matching Python `dict` observable
    behaviour for the operations the sources use;
  * `raise` / `try` control flow is embedded with `Except`.
-/

namespace ValutaTrade

/-- Domain errors of the application (`core/exceptions.py`), restricted to the
constructors the embedded operations can actually raise.  `valueError` stands
for Python's builtin `ValueError`, `runtimeError` for builtin `RuntimeError`,
`zeroDivisionError` for builtin `ZeroDivisionError`. -/
inductive Err where
  | currencyNotFound (code : String)
  | insufficientFunds (available required : ℚ) (currency_code : String)
  | authenticationError (msg : String)
  | apiRequestError (msg : String)
  | invalidAmount (msg : String)
  | valueError (msg : String)
  | runtimeError (msg : String)
  | zeroDivisionError (msg : String)
  deriving Repr, DecidableEq

deriving instance DecidableEq for Except

/-- Python `str.upper()` on the ASCII codes this application uses, embedded
over the character list so that it evaluates inside the kernel. -/
def py_upper (s : String) : String := String.mk (s.data.map Char.toUpper)

/-- Python `str.strip()`: drop whitespace from both ends. -/
def py_strip (s : String) : String :=
  String.mk (((s.data.dropWhile Char.isWhitespace).reverse.dropWhile Char.isWhitespace).reverse)

/-- First-match association-list lookup: the embedding of `dict.get` /
`key in dict` on JSON objects. -/
def alookup {β : Type} (k : String) : List (String × β) → Option β
  | [] => none
  | (k', v) :: rest => if k' = k then some v else alookup k rest

/-- Overwrite-or-append association-list update: the embedding of
`dict[key] = value`. -/
def aset {β : Type} (k : String) (v : β) : List (String × β) → List (String × β)
  | [] => [(k, v)]
  | (k', v') :: rest => if k' = k then (k, v) :: rest else (k', v') :: aset k v rest

/-- The static currency table of `core/currencies.py` (`CurrencyRegistry._currencies`);
only the codes matter to the verified operations. -/
def CurrencyRegistry.codes : List String :=
  ["USD", "EUR", "GBP", "RUB", "JPY", "CNY", "BTC", "ETH", "SOL", "ADA", "DOT"]

/-- Embeds `CurrencyRegistry.get_currency` of `core/currencies.py` / module-level
`get_currency`: uppercase the code, fail with `CurrencyNotFoundError` if it is
not in the static table.  The returned currency object is represented by its
code. -/
def get_currency (code : String) : Except Err String :=
  let c := py_upper code
  if c ∈ CurrencyRegistry.codes then Except.ok c
  else Except.error (Err.currencyNotFound c)

/-- Modelled from the spec: `normalize_currency_code` is imported by
`core/usecases.py` and `parser_service/updater.py` from `core/utils.py` but its
definition is absent from the sources; §4.1 of the spec describes it as
case-insensitive normalization by trim and uppercase (length/whitespace
rejection is a caller-side pre-condition and every use here immediately
validates through `get_currency`). -/
def normalize_currency_code (code : String) : String :=
  py_upper (py_strip code)

/-- Modelled from the spec: `parse_positive_decimal` is imported by
`core/usecases.py` from `core/utils.py` but its definition is absent from the
sources; §4.5 of the spec describes it as a shared parser that fails with
`InvalidAmount` on zero/negative/non-numeric input.  Non-numeric input is
outside the `ℚ` embedding, so the model validates strict positivity. -/
def parse_positive_decimal (amount : ℚ) : Except Err ℚ :=
  if amount ≤ 0 then Except.error (Err.invalidAmount "amount must be a positive decimal")
  else Except.ok amount

/-- Embeds the `Wallet` class of `core/models.py`: a single-currency balance. -/
structure Wallet where
  currency_code : String
  balance : ℚ
  deriving Repr, DecidableEq

/-- Embeds `Wallet.__init__` (`core/models.py` lines 94 to 96): uppercases the code and
stores `float(balance)` directly into `_balance`, with no non-negativity
check. -/
def Wallet.init (currency_code : String) (balance : ℚ) : Wallet :=
  { currency_code := py_upper currency_code, balance := balance }

/-- The `balance` property setter (`core/models.py` lines 102 to 108): rejects a
negative value with `ValueError`, otherwise assigns.  (The `TypeError` branch
for non-numeric input is outside the `ℚ` embedding.) -/
def Wallet.setBalance (w : Wallet) (value : ℚ) : Except Err Wallet :=
  if value < 0 then Except.error (Err.valueError "Баланс не может быть отрицательным")
  else Except.ok { w with balance := value }

/-- Embeds `Wallet.deposit` (`core/models.py` lines 110 to 114): rejects a non-positive
amount, then assigns `balance + amount` through the property setter. -/
def Wallet.deposit (w : Wallet) (amount : ℚ) : Except Err Wallet :=
  if amount ≤ 0 then Except.error (Err.valueError "Сумма пополнения должна быть положительной")
  else w.setBalance (w.balance + amount)

/-- Embeds `Wallet.withdraw` (`core/models.py` lines 116 to 126): rejects a non-positive
amount, fails with `InsufficientFundsError(available, required, currency_code)`
when `amount > balance`, otherwise assigns `balance - amount` through the
property setter. -/
def Wallet.withdraw (w : Wallet) (amount : ℚ) : Except Err Wallet :=
  if amount ≤ 0 then Except.error (Err.valueError "Сумма снятия должна быть положительной")
  else if amount > w.balance then
    Except.error (Err.insufficientFunds w.balance amount w.currency_code)
  else w.setBalance (w.balance - amount)

/-- Embeds `Wallet.from_dict` (`core/models.py` lines 142 to 148): rebuild a wallet from
its persisted `currency_code` / `balance` fields, via `Wallet.__init__`. -/
def Wallet.from_dict (currency_code : String) (balance : ℚ) : Wallet :=
  Wallet.init currency_code balance

/-- A deposit or withdrawal request against one wallet. -/
inductive WOp where
  | deposit (amount : ℚ)
  | withdraw (amount : ℚ)
  deriving Repr, DecidableEq

def WOp.amount : WOp → ℚ
  | WOp.deposit a => a
  | WOp.withdraw a => a

/-- One operation against a wallet object: a raised exception leaves the Python
object unchanged (both `deposit` and `withdraw` raise before the single
assignment to `_balance`). -/
def Wallet.step (w : Wallet) (op : WOp) : Wallet :=
  match op with
  | WOp.deposit a =>
    match w.deposit a with
    | Except.ok w' => w'
    | Except.error _ => w
  | WOp.withdraw a =>
    match w.withdraw a with
    | Except.ok w' => w'
    | Except.error _ => w

/-- A finite sequence of deposit/withdraw requests applied in order. -/
def Wallet.run (w : Wallet) (ops : List WOp) : Wallet :=
  ops.foldl Wallet.step w

/-- The hard-coded rate table of the `ExchangeRates` stub in `core/utils.py`
(`_rates`), with every decimal literal read as the exact rational it denotes. -/
def ExchangeRates.rates_table : List (String × ℚ) :=
  [("EUR_USD", 10786 / 10000), ("GBP_USD", 12591 / 10000), ("RUB_USD", 1016 / 100000),
   ("JPY_USD", 67 / 10000), ("CNY_USD", 1389 / 10000), ("USD_USD", 1),
   ("BTC_USD", 5933721 / 100), ("ETH_USD", 3720), ("SOL_USD", 14512 / 100),
   ("ADA_USD", 45 / 100), ("DOT_USD", 82 / 10),
   ("EUR_BTC", 1817 / 100000000), ("BTC_EUR", 5502742 / 100)]

/-- Embeds `ExchangeRates.get_rate` (`core/utils.py` lines 83 to 111), with explicit
fuel for the self-call: validate both codes, short-circuit `from == to` to `1`,
try the direct pair, then the reverse pair inverted, then bridge through USD
(the recursive calls each have one side equal to `"USD"`, so recursion depth is
at most one and fuel `2` reproduces the source exactly; the `except
CurrencyNotFoundError: pass` around the bridge falls through to the final
raise, which the error branch of the inner match reproduces because every error
this function can see is a `CurrencyNotFoundError`). -/
def ExchangeRates.get_rate_fuel : ℕ → String → String → Except Err ℚ
  | 0, from_currency, to_currency =>
    Except.error (Err.currencyNotFound (from_currency ++ "/" ++ to_currency))
  | n + 1, from_currency, to_currency =>
    match get_currency from_currency with
    | Except.error e => Except.error e
    | Except.ok _ =>
    match get_currency to_currency with
    | Except.error e => Except.error e
    | Except.ok _ =>
    if from_currency = to_currency then Except.ok 1
    else
      match alookup (from_currency ++ "_" ++ to_currency) ExchangeRates.rates_table with
      | some r => Except.ok r
      | none =>
        match alookup (to_currency ++ "_" ++ from_currency) ExchangeRates.rates_table with
        | some r => Except.ok (1 / r)
        | none =>
          if from_currency ≠ "USD" ∧ to_currency ≠ "USD" then
            match ExchangeRates.get_rate_fuel n from_currency "USD",
                  ExchangeRates.get_rate_fuel n "USD" to_currency with
            | Except.ok rate_to_usd, Except.ok rate_from_usd =>
              Except.ok (rate_to_usd * rate_from_usd)
            | _, _ =>
              Except.error
                (Err.currencyNotFound ("Курс для пары " ++ from_currency ++ "/" ++ to_currency ++ " не найден"))
          else
            Except.error
              (Err.currencyNotFound ("Курс для пары " ++ from_currency ++ "/" ++ to_currency ++ " не найден"))

def ExchangeRates.get_rate (from_currency to_currency : String) : Except Err ℚ :=
  ExchangeRates.get_rate_fuel 2 from_currency to_currency

/-- Embeds the `Portfolio` class of `core/models.py`: per-user mapping from currency code to wallet,
in insertion order. -/
structure Portfolio where
  user_id : ℤ
  wallets : List (String × Wallet)
  deriving Repr, DecidableEq

/-- Embeds `Portfolio.get_wallet` (`core/models.py` lines 176 to 181): uppercase the
code, raise `ValueError` when the portfolio has no wallet under that key,
otherwise return the stored wallet object. -/
def Portfolio.get_wallet (p : Portfolio) (currency_code : String) : Except Err Wallet :=
  let c := py_upper currency_code
  match alookup c p.wallets with
  | none => Except.error (Err.valueError ("Кошелек для валюты " ++ c ++ " не найден"))
  | some w => Except.ok w

/-- CPython mutates the `Wallet` object returned by `get_wallet` in place
through the shared reference; in the embedding the mutated wallet replaces the
entry stored under the same (uppercased) key. -/
def Portfolio.setWallet (p : Portfolio) (currency_code : String) (w : Wallet) : Portfolio :=
  { p with
    wallets := p.wallets.map (fun cw => if cw.1 = py_upper currency_code then (cw.1, w) else cw) }

/-- The accumulation loop of `Portfolio.get_total_value` (`core/models.py` lines
183 to 198): the base-currency wallet contributes its balance, any other wallet
contributes `balance * ExchangeRates.get_rate(code, base)`, and a failed rate
lookup is swallowed (`except Exception: continue`), contributing nothing. -/
def total_value_go (base_currency : String) : List (String × Wallet) → ℚ
  | [] => 0
  | (currency_code, w) :: rest =>
    (if currency_code = base_currency then w.balance
     else
       match ExchangeRates.get_rate currency_code base_currency with
       | Except.ok rate => w.balance * rate
       | Except.error _ => 0) + total_value_go base_currency rest

def Portfolio.get_total_value (p : Portfolio) (base_currency : String) : ℚ :=
  total_value_go base_currency p.wallets

/-- One `"FROM_TO"` record of `data/rates.json`: `{rate, updated_at}`. -/
structure RateRec where
  rate : ℚ
  updated_at : ℤ
  deriving Repr, DecidableEq

/-- The persisted rates cache object (`data/rates.json`): pair records plus
top-level `source` and `last_refresh`.  `last_refresh = none` embeds a missing
(or falsy) `last_refresh` value. -/
structure RatesData where
  last_refresh : Option ℤ
  source : String
  pairs : List (String × RateRec)
  deriving Repr, DecidableEq

/-- Embeds `RatesUsecase._pair_key` (`core/usecases.py` line 209). -/
def RatesUsecase.pair_key (from_code to_code : String) : String :=
  from_code ++ "_" ++ to_code

/-- Embeds `RatesUsecase._is_fresh` (`core/usecases.py` lines 212 to 215):
`(now - last) <= ttl`, where `ttl = int(settings.get("ratesttlseconds", 300))`
is passed in as a parameter. -/
def RatesUsecase.is_fresh (ttl now last_refresh : ℤ) : Bool :=
  now - last_refresh ≤ ttl

/-- Embeds `RatesUsecase.get_rate` (`core/usecases.py` lines 217 to 239): normalize and
validate both codes, then fail with `ApiRequestError` if the cache has no
`last_refresh`, if the cache is stale, or if the pair key is absent; otherwise
return the stored `(rate, updated_at)`.  There is no special case for
`from == to`. -/
def RatesUsecase.get_rate (ttl now : ℤ) (data : RatesData) (from_code to_code : String) :
    Except Err (ℚ × ℤ) :=
  let frm := normalize_currency_code from_code
  let toc := normalize_currency_code to_code
  match get_currency frm with
  | Except.error e => Except.error e
  | Except.ok _ =>
  match get_currency toc with
  | Except.error e => Except.error e
  | Except.ok _ =>
  match data.last_refresh with
  | none => Except.error (Err.apiRequestError "Кеш курсов пуст. Выполните update-rates")
  | some last =>
    if RatesUsecase.is_fresh ttl now last then
      match alookup (RatesUsecase.pair_key frm toc) data.pairs with
      | none =>
        Except.error
          (Err.apiRequestError ("Курс " ++ frm ++ "→" ++ toc ++ " недоступен. Выполните update-rates"))
      | some r => Except.ok (r.rate, r.updated_at)
    else Except.error (Err.apiRequestError "Кеш курсов устарел. Выполните update-rates")

/-- One record of `portfolios.json`: `{user_id, wallets: {code: {balance}}}`. -/
structure PortfolioRec where
  user_id : ℤ
  wallets : List (String × ℚ)
  deriving Repr, DecidableEq

/-- The JSON store (`infra/database.py` through `db`), restricted to the two
documents the verified usecases touch. -/
structure DB where
  portfolios : List PortfolioRec
  rates : RatesData
  deriving Repr, DecidableEq

/-- Embeds `PortfolioUsecase._load_portfolio` (`core/usecases.py` lines 74 to 86): the
first record with the user's id is materialised into `Wallet` objects (an empty
portfolio if none is persisted). -/
def load_portfolio (portfolios : List PortfolioRec) (user_id : ℤ) : Portfolio :=
  match portfolios with
  | [] => { user_id := user_id, wallets := [] }
  | p :: rest =>
    if p.user_id = user_id then
      { user_id := user_id, wallets := p.wallets.map (fun cb => (cb.1, Wallet.init cb.1 cb.2)) }
    else load_portfolio rest user_id

/-- Modelled from the spec: `Portfolio.to_json_payload` is called by
`PortfolioUsecase._save_portfolio` but is absent from the `Portfolio` class in
`core/models.py`; §6 of the spec fixes the persisted shape of `portfolios.json`
as `{userId, wallets: mapping(currencyCode -> {balance})}`. -/
def Portfolio.to_json_payload (p : Portfolio) : PortfolioRec :=
  { user_id := p.user_id, wallets := p.wallets.map (fun cw => (cw.1, cw.2.balance)) }

/-- The replace-or-append loop of `PortfolioUsecase._save_portfolio`
(`core/usecases.py` lines 88 to 96). -/
def save_portfolio_list (p : Portfolio) : List PortfolioRec → List PortfolioRec
  | [] => [p.to_json_payload]
  | r :: rest =>
    if r.user_id = p.user_id then p.to_json_payload :: rest
    else r :: save_portfolio_list p rest

def save_portfolio (db : DB) (p : Portfolio) : DB :=
  { db with portfolios := save_portfolio_list p db.portfolios }

/-- The `@require_auth` guard plus the inline `session_manager.current_user`
check shared by `buy`, `sell` and `show_portfolio`: fail with
`AuthenticationError` when no session user is set. -/
def require_user (session : Option ℤ) : Except Err ℤ :=
  match session with
  | none => Except.error (Err.authenticationError "Сначала выполните login")
  | some user_id => Except.ok user_id

/-- The receipt dictionary returned by `PortfolioUsecase.buy`. -/
structure BuyReceipt where
  currency : String
  amount : ℚ
  old_balance : ℚ
  new_balance : ℚ
  rate : ℚ
  base : String
  updated_at : ℤ
  estimated_cost : ℚ
  deriving Repr, DecidableEq

/-- The receipt dictionary returned by `PortfolioUsecase.sell`. -/
structure SellReceipt where
  currency : String
  amount : ℚ
  old_balance : ℚ
  new_balance : ℚ
  rate : ℚ
  base : String
  updated_at : ℤ
  estimated_proceeds : ℚ
  deriving Repr, DecidableEq

/-- Embeds `PortfolioUsecase.buy` (`core/usecases.py` lines 98 to 136).  The statement
order is the source's: validate codes, parse the amount, require a session,
load the portfolio, fetch the wallet (`Portfolio.get_wallet`, which raises when
the wallet is missing), deposit, look the rate up, and only then persist.  Any
raise aborts with that error; in particular the rate lookup sits *before*
`_save_portfolio`. -/
def PortfolioUsecase.buy (ttl now : ℤ) (session : Option ℤ) (db : DB)
    (currency_code : String) (amount : ℚ) (base : String) : Except Err (DB × BuyReceipt) :=
  let code := normalize_currency_code currency_code
  let base_code := normalize_currency_code base
  match get_currency code with
  | Except.error e => Except.error e
  | Except.ok _ =>
  match get_currency base_code with
  | Except.error e => Except.error e
  | Except.ok _ =>
  match parse_positive_decimal amount with
  | Except.error e => Except.error e
  | Except.ok amt =>
  match require_user session with
  | Except.error e => Except.error e
  | Except.ok user_id =>
    let portfolio := load_portfolio db.portfolios user_id
    match portfolio.get_wallet code with
    | Except.error e => Except.error e
    | Except.ok wallet =>
      let old_balance := wallet.balance
      match wallet.deposit amt with
      | Except.error e => Except.error e
      | Except.ok wallet' =>
        let portfolio' := portfolio.setWallet code wallet'
        match RatesUsecase.get_rate ttl now db.rates code base_code with
        | Except.error e => Except.error e
        | Except.ok r =>
          let estimated_cost := amt * r.1
          let db' := save_portfolio db portfolio'
          Except.ok (db',
            { currency := code, amount := amt, old_balance := old_balance,
              new_balance := wallet'.balance, rate := r.1, base := base_code,
              updated_at := r.2, estimated_cost := estimated_cost })

/-- Embeds `PortfolioUsecase.sell` (`core/usecases.py` lines 138 to 176): symmetric to
`buy` with `withdraw` in place of `deposit`; the funds check inside `withdraw`
runs strictly before the rate lookup, which runs strictly before
`_save_portfolio`. -/
def PortfolioUsecase.sell (ttl now : ℤ) (session : Option ℤ) (db : DB)
    (currency_code : String) (amount : ℚ) (base : String) : Except Err (DB × SellReceipt) :=
  let code := normalize_currency_code currency_code
  let base_code := normalize_currency_code base
  match get_currency code with
  | Except.error e => Except.error e
  | Except.ok _ =>
  match get_currency base_code with
  | Except.error e => Except.error e
  | Except.ok _ =>
  match parse_positive_decimal amount with
  | Except.error e => Except.error e
  | Except.ok amt =>
  match require_user session with
  | Except.error e => Except.error e
  | Except.ok user_id =>
    let portfolio := load_portfolio db.portfolios user_id
    match portfolio.get_wallet code with
    | Except.error e => Except.error e
    | Except.ok wallet =>
      let old_balance := wallet.balance
      match wallet.withdraw amt with
      | Except.error e => Except.error e
      | Except.ok wallet' =>
        let portfolio' := portfolio.setWallet code wallet'
        match RatesUsecase.get_rate ttl now db.rates code base_code with
        | Except.error e => Except.error e
        | Except.ok r =>
          let estimated_proceeds := amt * r.1
          let db' := save_portfolio db portfolio'
          Except.ok (db',
            { currency := code, amount := amt, old_balance := old_balance,
              new_balance := wallet'.balance, rate := r.1, base := base_code,
              updated_at := r.2, estimated_proceeds := estimated_proceeds })

/-- Embeds `buy` as observed through the JSON files: an exception means
`db.write_list` was never reached for this call, so the store is unchanged. -/
def run_buy (ttl now : ℤ) (session : Option ℤ) (db : DB)
    (currency_code : String) (amount : ℚ) (base : String) : DB × Except Err BuyReceipt :=
  match PortfolioUsecase.buy ttl now session db currency_code amount base with
  | Except.ok (db', receipt) => (db', Except.ok receipt)
  | Except.error e => (db, Except.error e)

/-- Embeds `sell` as observed through the JSON files, as for `run_buy`. -/
def run_sell (ttl now : ℤ) (session : Option ℤ) (db : DB)
    (currency_code : String) (amount : ℚ) (base : String) : DB × Except Err SellReceipt :=
  match PortfolioUsecase.sell ttl now session db currency_code amount base with
  | Except.ok (db', receipt) => (db', Except.ok receipt)
  | Except.error e => (db, Except.error e)

/-- The valuation loop of `PortfolioUsecase.show_portfolio` (`core/usecases.py`
lines 194 to 201): the base wallet contributes its balance, any other wallet
contributes `balance * rate`, and the `rates.get_rate` call is *not* wrapped in
`try`, so its exception propagates out of the whole loop. -/
def show_values (ttl now : ℤ) (rates : RatesData) (base_code : String) :
    List (String × Wallet) → Except Err (List (String × ℚ) × ℚ)
  | [] => Except.ok ([], 0)
  | (code, w) :: rest =>
    match
      (if code = base_code then Except.ok w.balance
       else
         match RatesUsecase.get_rate ttl now rates code base_code with
         | Except.error e => Except.error e
         | Except.ok r => Except.ok (w.balance * r.1)) with
    | Except.error e => Except.error e
    | Except.ok value =>
      match show_values ttl now rates base_code rest with
      | Except.error e => Except.error e
      | Except.ok tail => Except.ok ((code, value) :: tail.1, value + tail.2)

/-- Embeds `PortfolioUsecase.show_portfolio` (`core/usecases.py` lines 178 to 203):
validate the base, require a session, load the portfolio and run the valuation
loop, returning the portfolio, per-wallet values and the total. -/
def PortfolioUsecase.show_portfolio (ttl now : ℤ) (session : Option ℤ) (db : DB)
    (base : String) : Except Err (Portfolio × List (String × ℚ) × ℚ) :=
  let base_code := normalize_currency_code base
  match get_currency base_code with
  | Except.error e => Except.error e
  | Except.ok _ =>
  match require_user session with
  | Except.error e => Except.error e
  | Except.ok user_id =>
    let portfolio := load_portfolio db.portfolios user_id
    match show_values ttl now db.rates base_code portfolio.wallets with
    | Except.error e => Except.error e
    | Except.ok vt => Except.ok (portfolio, vt.1, vt.2)

/-- A base-currency rate snapshot as returned by an api client
(`parser_service/api_clients.py`): `rates` maps currency code to the base→code
rate, `source` names the client. -/
structure Snapshot where
  rates : List (String × ℚ)
  source : String
  deriving Repr, DecidableEq

/-- The `supported` list of `RatesUpdater.update`
(`parser_service/updater.py` line 47). -/
def RatesUpdater.supported : List String :=
  ["USD", "EUR", "RUB", "BTC", "ETH"]

/-- The body of the doubly nested pair loop of `RatesUpdater.update`
(`parser_service/updater.py` lines 63 to 75): skip the diagonal (`continue`,
contributing nothing), skip a pair with either side missing from the snapshot,
and otherwise evaluate `float(rates[to]) / float(rates[frm])` — which raises
`ZeroDivisionError` when the `frm` entry is zero, aborting the whole update
before anything is persisted — stamping the derived rate with the single
refresh instant.  (The in-loop `normalize_currency_code` calls are identities
on the `supported` codes.) -/
def RatesUpdater.pair_entry (rates : List (String × ℚ)) (updated_at : ℤ) (frm toc : String) :
    Except Err (Option (String × RateRec)) :=
  if frm = toc then Except.ok none
  else
    match alookup frm rates, alookup toc rates with
    | some rf, some rt =>
      if rf = 0 then Except.error (Err.zeroDivisionError "float division by zero")
      else Except.ok (some (frm ++ "_" ++ toc, { rate := rt / rf, updated_at := updated_at }))
    | _, _ => Except.ok none

/-- The inner `for to in supported` loop: each iteration either raises
(propagating out of the whole update), contributes nothing, or appends one
derived pair, in iteration order. -/
def RatesUpdater.inner_loop (rates : List (String × ℚ)) (updated_at : ℤ) (frm : String) :
    List String → Except Err (List (String × RateRec))
  | [] => Except.ok []
  | toc :: rest =>
    match RatesUpdater.pair_entry rates updated_at frm toc with
    | Except.error e => Except.error e
    | Except.ok none => RatesUpdater.inner_loop rates updated_at frm rest
    | Except.ok (some kv) =>
      match RatesUpdater.inner_loop rates updated_at frm rest with
      | Except.error e => Except.error e
      | Except.ok tail => Except.ok (kv :: tail)

/-- The outer `for frm in supported` loop, concatenating the inner loops'
contributions in order. -/
def RatesUpdater.outer_loop (rates : List (String × ℚ)) (updated_at : ℤ) :
    List String → Except Err (List (String × RateRec))
  | [] => Except.ok []
  | frm :: rest =>
    match RatesUpdater.inner_loop rates updated_at frm RatesUpdater.supported with
    | Except.error e => Except.error e
    | Except.ok chunk =>
      match RatesUpdater.outer_loop rates updated_at rest with
      | Except.error e => Except.error e
      | Except.ok tail => Except.ok (chunk ++ tail)

/-- The full doubly nested loop `for frm in supported: for to in supported`:
the derived pair table, or the `ZeroDivisionError` that aborts the update. -/
def RatesUpdater.build_pairs (rates : List (String × ℚ)) (updated_at : ℤ) :
    Except Err (List (String × RateRec)) :=
  RatesUpdater.outer_loop rates updated_at RatesUpdater.supported

/-- Embeds the loop `for c in supported: get_currency(c)` (`parser_service/updater.py` lines 48
to 49). -/
def validate_codes : List String → Except Err Unit
  | [] => Except.ok ()
  | c :: rest =>
    match get_currency c with
    | Except.error e => Except.error e
    | Except.ok _ => validate_codes rest

/-- Embeds `RatesUpdater.update` (`parser_service/updater.py` lines 30 to 83).  The
client loop is abstracted into the `snapshot` argument: `some snap` is the
first successful fetch, `none` means every client failed (`RuntimeError`).
After validating `base` and the supported codes, the snapshot is copied, the
base entry is forced to `1.0`, the pair table is derived, and the payload is
persisted with `source` and `last_refresh` equal to the single refresh
instant `now_iso` (`RatesStorage.now_iso()`). -/
def RatesUpdater.update (snapshot : Option Snapshot) (now_iso : ℤ) (base : String) :
    Except Err RatesData :=
  let base_code := normalize_currency_code base
  match get_currency base_code with
  | Except.error e => Except.error e
  | Except.ok _ =>
  match snapshot with
  | none => Except.error (Err.runtimeError "Не удалось получить курсы")
  | some snap =>
    match validate_codes RatesUpdater.supported with
    | Except.error e => Except.error e
    | Except.ok _ =>
      let rates := aset base_code 1 snap.rates
      match RatesUpdater.build_pairs rates now_iso with
      | Except.error e => Except.error e
      | Except.ok pairs =>
        Except.ok { last_refresh := some now_iso, source := snap.source, pairs := pairs }

/-! ## Wallet ledger invariants -/

theorem step_balance_nonneg (w : Wallet) (op : WOp) (h : 0 ≤ w.balance) :
    0 ≤ (w.step op).balance := by
  cases op with
  | deposit a =>
    by_cases h1 : a ≤ 0
    · simp [Wallet.step, Wallet.deposit, h1, h]
    · by_cases h2 : w.balance + a < 0
      · simp [Wallet.step, Wallet.deposit, Wallet.setBalance, h1, h2, h]
      · simp only [Wallet.step, Wallet.deposit, Wallet.setBalance, h1, if_false, h2]
        simpa using not_lt.mp h2
  | withdraw a =>
    by_cases h1 : a ≤ 0
    · simp [Wallet.step, Wallet.withdraw, h1, h]
    · by_cases h2 : a > w.balance
      · simp [Wallet.step, Wallet.withdraw, h1, h2, h]
      · by_cases h3 : w.balance - a < 0
        · simp [Wallet.step, Wallet.withdraw, Wallet.setBalance, h1, h2, h3, h]
        · simp only [Wallet.step, Wallet.withdraw, Wallet.setBalance, h1, if_false, h2, h3]
          simpa using not_lt.mp h3

theorem run_balance_nonneg (ops : List WOp) (w : Wallet) (h : 0 ≤ w.balance) :
    0 ≤ (w.run ops).balance := by
  induction ops generalizing w with
  | nil => simpa [Wallet.run] using h
  | cons op rest ih =>
    simpa [Wallet.run, List.foldl] using ih (w.step op) (step_balance_nonneg w op h)

/-- C4: starting from a non-negative balance, any finite sequence of deposit and
withdraw requests (with positive amounts) keeps `balance >= 0` after each
operation — every prefix of the sequence is itself such a sequence — and a
withdrawal exceeding the balance fails with `InsufficientFundsError` and
changes nothing. -/
theorem wallet_balance_invariant (w : Wallet) (ops : List WOp) (a : ℚ)
    (h0 : 0 ≤ w.balance) (hpos : ∀ op ∈ ops, 0 < op.amount)
    (ha : 0 < a) (hgt : w.balance < a) :
    0 ≤ (w.run ops).balance ∧
      w.withdraw a = Except.error (Err.insufficientFunds w.balance a w.currency_code) ∧
      w.step (WOp.withdraw a) = w := by
  refine ⟨run_balance_nonneg ops w h0, ?_, ?_⟩
  · simp [Wallet.withdraw, ha.not_le, hgt]
  · simp [Wallet.step, Wallet.withdraw, ha.not_le, hgt]

theorem wallet_balance_invariant_witness :
    0 ≤ ((Wallet.init "USD" 10).run [WOp.deposit 5, WOp.withdraw 3]).balance ∧
      (Wallet.init "USD" 10).withdraw 100
        = Except.error (Err.insufficientFunds 10 100 "USD") ∧
      (Wallet.init "USD" 10).step (WOp.withdraw 100) = Wallet.init "USD" 10 :=
  wallet_balance_invariant (Wallet.init "USD" 10) [WOp.deposit 5, WOp.withdraw 3] 100
    (by norm_num [Wallet.init]) (by decide) (by norm_num) (by norm_num [Wallet.init])

/-- C5: with exact decimal arithmetic — the arithmetic the spec mandates for
balances — `withdraw a` followed by `deposit a` restores the balance exactly.
The shipped `Wallet` stores balances as IEEE-754 binary floats, where this
round-trip can fail: for balance `1 + 3 * 2 ^ (-52)` and amount
`3 * 2 ^ (-53)` both the subtraction and the re-addition round ties to even and
the float balance ends one ulp high, at `1 + 4 * 2 ^ (-52)`.  That is the
recorded code bug; this theorem establishes the property for the intended
semantics. -/
theorem withdraw_deposit_roundtrip (w : Wallet) (a : ℚ) (h1 : 0 < a) (h2 : a ≤ w.balance) :
    (w.withdraw a).bind (fun w' => w'.deposit a) = Except.ok w := by
  have hb : (0 : ℚ) ≤ w.balance := le_trans h1.le h2
  have h3 : ¬ w.balance - a < 0 := not_lt.mpr (sub_nonneg.mpr h2)
  simp [Wallet.withdraw, Wallet.deposit, Wallet.setBalance, Except.bind,
    h1.not_le, not_lt.mpr h2, h3, sub_add_cancel, not_lt.mpr hb]

theorem withdraw_deposit_roundtrip_witness :
    ((Wallet.init "USD" 10).withdraw 3).bind (fun w' => w'.deposit 3)
      = Except.ok (Wallet.init "USD" 10) :=
  withdraw_deposit_roundtrip (Wallet.init "USD" 10) 3 (by norm_num)
    (by norm_num [Wallet.init])

/-- C10: `Wallet.__init__` performs no non-negativity check: for every balance
`b` — negative included — the constructed wallet (and hence `Wallet.from_dict`
on persisted data) carries exactly `b`, so loading a portfolio from storage does
not re-establish `balance >= 0`. -/
theorem wallet_init_no_nonneg_check (code : String) (b : ℚ) :
    (Wallet.init code b).balance = b ∧ (Wallet.from_dict code b).balance = b :=
  ⟨rfl, rfl⟩

/-! ## Trading usecases: sell and buy failure ordering -/

/-- C2: when the validated amount exceeds the wallet balance, `sell` fails with
`InsufficientFundsError`, the persisted store is returned unchanged, and the
result is the same for every possible rates cache — the funds check strictly
precedes any rate lookup. -/
theorem sell_insufficient_funds_aborts (ttl now uid : ℤ) (portfolios : List PortfolioRec)
    (currency_code : String) (amount : ℚ) (base : String) (c₁ c₂ : String) (w : Wallet)
    (h1 : get_currency (normalize_currency_code currency_code) = Except.ok c₁)
    (h2 : get_currency (normalize_currency_code base) = Except.ok c₂)
    (h3 : 0 < amount)
    (hw : (load_portfolio portfolios uid).get_wallet (normalize_currency_code currency_code)
            = Except.ok w)
    (hlt : w.balance < amount) :
    ∀ rates : RatesData,
      run_sell ttl now (some uid) { portfolios := portfolios, rates := rates }
          currency_code amount base
        = ({ portfolios := portfolios, rates := rates },
            Except.error (Err.insufficientFunds w.balance amount w.currency_code)) := by
  intro rates
  simp [run_sell, PortfolioUsecase.sell, parse_positive_decimal, require_user,
    Wallet.withdraw, h1, h2, h3.not_le, hw, hlt]

theorem sell_insufficient_funds_aborts_witness :
    run_sell 300 0 (some 1)
        { portfolios := [{ user_id := 1, wallets := [("USD", 5)] }],
          rates := { last_refresh := none, source := "", pairs := [] } }
        "USD" 10 "EUR"
      = ({ portfolios := [{ user_id := 1, wallets := [("USD", 5)] }],
           rates := { last_refresh := none, source := "", pairs := [] } },
         Except.error (Err.insufficientFunds 5 10 "USD")) :=
  sell_insufficient_funds_aborts 300 0 1 [{ user_id := 1, wallets := [("USD", 5)] }]
    "USD" 10 "EUR" "USD" "EUR" (Wallet.init "USD" 5)
    (by rfl) (by rfl) (by norm_num) (by rfl) (by norm_num [Wallet.init])
    { last_refresh := none, source := "", pairs := [] }

/-- A store whose rates cache has no `last_refresh`: the trade currencies are
valid, the session is authenticated, the wallet exists and the amount is
positive, yet the rate lookup inside `buy` fails. -/
def db_cache_empty : DB :=
  { portfolios := [{ user_id := 1, wallets := [("USD", 5)] }],
    rates := { last_refresh := none, source := "", pairs := [] } }

/-- C1 counterexample: with a valid currency and base, a positive amount, an
authenticated user and an existing wallet, a failing rate lookup makes `buy`
raise `ApiRequestError` and leaves the persisted store unchanged — it does not
persist the deposit and return a receipt with `estimatedCost = 0`. -/
theorem buy_rate_failure_not_tolerated :
    run_buy 300 0 (some 1) db_cache_empty "USD" 1 "EUR"
      = (db_cache_empty,
         Except.error (Err.apiRequestError "Кеш курсов пуст. Выполните update-rates")) := by
  have h1 : get_currency (normalize_currency_code "USD") = Except.ok "USD" := rfl
  have h2 : get_currency (normalize_currency_code "EUR") = Except.ok "EUR" := rfl
  have hp : parse_positive_decimal 1 = Except.ok 1 := rfl
  have hw : (load_portfolio db_cache_empty.portfolios 1).get_wallet
      (normalize_currency_code "USD") = Except.ok { currency_code := "USD", balance := 5 } := rfl
  have hdep : (Wallet.mk "USD" 5).deposit 1 = Except.ok { currency_code := "USD", balance := 6 } := by
    norm_num [Wallet.deposit, Wallet.setBalance]
  have hr : RatesUsecase.get_rate 300 0 db_cache_empty.rates (normalize_currency_code "USD")
      (normalize_currency_code "EUR")
      = Except.error (Err.apiRequestError "Кеш курсов пуст. Выполните update-rates") := rfl
  simp [run_buy, PortfolioUsecase.buy, require_user, h1, h2, hp, hw, hdep, hr]

/-- C1 (amended): a rate-lookup failure inside `buy` is fatal: whenever the call
reaches the rate lookup (valid codes, positive amount, authenticated session,
existing wallet, successful deposit) and `RatesUsecase.get_rate` raises `e`,
`buy` propagates `e` and the store is unchanged — `_save_portfolio` runs only
after a successful rate lookup. -/
theorem buy_rate_failure_aborts (ttl now uid : ℤ) (portfolios : List PortfolioRec)
    (rates : RatesData) (currency_code : String) (amount : ℚ) (base : String)
    (c₁ c₂ : String) (w w' : Wallet) (e : Err)
    (h1 : get_currency (normalize_currency_code currency_code) = Except.ok c₁)
    (h2 : get_currency (normalize_currency_code base) = Except.ok c₂)
    (h3 : 0 < amount)
    (hw : (load_portfolio portfolios uid).get_wallet (normalize_currency_code currency_code)
            = Except.ok w)
    (hdep : w.deposit amount = Except.ok w')
    (hrate : RatesUsecase.get_rate ttl now rates (normalize_currency_code currency_code)
               (normalize_currency_code base) = Except.error e) :
    run_buy ttl now (some uid) { portfolios := portfolios, rates := rates }
        currency_code amount base
      = ({ portfolios := portfolios, rates := rates }, Except.error e) := by
  simp [run_buy, PortfolioUsecase.buy, parse_positive_decimal, require_user,
    h1, h2, h3.not_le, hw, hdep, hrate]

theorem buy_rate_failure_aborts_witness :
    run_buy 300 1000 (some 7)
        { portfolios := [{ user_id := 7, wallets := [("EUR", 3)] }],
          rates := { last_refresh := some 0, source := "stub", pairs := [] } }
        "EUR" 2 "USD"
      = ({ portfolios := [{ user_id := 7, wallets := [("EUR", 3)] }],
           rates := { last_refresh := some 0, source := "stub", pairs := [] } },
         Except.error (Err.apiRequestError "Кеш курсов устарел. Выполните update-rates")) :=
  buy_rate_failure_aborts 300 1000 7 [{ user_id := 7, wallets := [("EUR", 3)] }]
    { last_refresh := some 0, source := "stub", pairs := [] } "EUR" 2 "USD"
    "EUR" "USD" { currency_code := "EUR", balance := 3 } { currency_code := "EUR", balance := 5 }
    (Err.apiRequestError "Кеш курсов устарел. Выполните update-rates")
    (by rfl) (by rfl) (by norm_num) (by rfl)
    (by norm_num [Wallet.deposit, Wallet.setBalance]) (by rfl)

/-! ## Portfolio wallet lookup -/

/-- A portfolio holding no wallets at all. -/
def portfolio_no_wallets : Portfolio :=
  { user_id := 1, wallets := [] }

/-- C3 counterexample: `get_wallet` on a valid currency code with no wallet in
the portfolio raises `ValueError` instead of returning a zero-balance
wallet. -/
theorem get_wallet_missing_not_vivified :
    portfolio_no_wallets.get_wallet "USD"
      = Except.error (Err.valueError "Кошелек для валюты USD не найден") := by
  rfl

/-- C3 (amended): `Portfolio.get_wallet` raises a "wallet not found"
`ValueError` whenever the portfolio has no wallet stored under the uppercased
code; there is no auto-vivification on this read path. -/
theorem get_wallet_missing_raises (p : Portfolio) (code : String)
    (h : alookup (py_upper code) p.wallets = none) :
    p.get_wallet code
      = Except.error (Err.valueError ("Кошелек для валюты " ++ py_upper code ++ " не найден")) := by
  simp [Portfolio.get_wallet, h]

theorem get_wallet_missing_raises_witness :
    portfolio_no_wallets.get_wallet "usd"
      = Except.error (Err.valueError ("Кошелек для валюты " ++ py_upper "usd" ++ " не найден")) :=
  get_wallet_missing_raises portfolio_no_wallets "usd" (by rfl)

/-! ## Rates cache read policy -/

/-- C7: on valid, normalized codes, `RatesUsecase.get_rate` fails with the
cache-empty error when the cache has no `last_refresh`; with `some last` it
fails with the cache-expired error exactly when `now - last > ttl` (so a cache
with `last_refresh = now` is fresh whenever `0 ≤ ttl`); a fresh cache without
the `frm_to` pair key fails with the rate-unavailable error; and a fresh cache
with the pair returns its stored `(rate, updated_at)`. -/
theorem get_rate_cache_policy (ttl now : ℤ) (data : RatesData) (frm toc : String)
    (c₁ c₂ : String)
    (hf : normalize_currency_code frm = frm) (ht : normalize_currency_code toc = toc)
    (h1 : get_currency frm = Except.ok c₁) (h2 : get_currency toc = Except.ok c₂) :
    (data.last_refresh = none →
      RatesUsecase.get_rate ttl now data frm toc
        = Except.error (Err.apiRequestError "Кеш курсов пуст. Выполните update-rates")) ∧
    (∀ last, data.last_refresh = some last → ttl < now - last →
      RatesUsecase.get_rate ttl now data frm toc
        = Except.error (Err.apiRequestError "Кеш курсов устарел. Выполните update-rates")) ∧
    (∀ last, data.last_refresh = some last → now - last ≤ ttl →
      alookup (RatesUsecase.pair_key frm toc) data.pairs = none →
      RatesUsecase.get_rate ttl now data frm toc
        = Except.error
            (Err.apiRequestError ("Курс " ++ frm ++ "→" ++ toc ++ " недоступен. Выполните update-rates"))) ∧
    (∀ last r, data.last_refresh = some last → now - last ≤ ttl →
      alookup (RatesUsecase.pair_key frm toc) data.pairs = some r →
      RatesUsecase.get_rate ttl now data frm toc = Except.ok (r.rate, r.updated_at)) := by
  refine ⟨?_, ?_, ?_, ?_⟩
  · intro hnone
    simp [RatesUsecase.get_rate, hf, ht, h1, h2, hnone]
  · intro last hsome hstale
    simp [RatesUsecase.get_rate, RatesUsecase.is_fresh, hf, ht, h1, h2, hsome,
      not_le.mpr hstale]
  · intro last hsome hfresh hmiss
    simp [RatesUsecase.get_rate, RatesUsecase.is_fresh, hf, ht, h1, h2, hsome, hfresh, hmiss]
  · intro last r hsome hfresh hhit
    simp [RatesUsecase.get_rate, RatesUsecase.is_fresh, hf, ht, h1, h2, hsome, hfresh, hhit]

theorem get_rate_cache_policy_witness :
    RatesUsecase.get_rate 300 500 { last_refresh := some 100, source := "s", pairs := [] }
        "EUR" "USD"
      = Except.error (Err.apiRequestError "Кеш курсов устарел. Выполните update-rates") ∧
    RatesUsecase.get_rate 300 100
        { last_refresh := some 100, source := "s",
          pairs := [("EUR_USD", { rate := 2, updated_at := 100 })] } "EUR" "USD"
      = Except.ok (2, 100) :=
  ⟨(get_rate_cache_policy 300 500 { last_refresh := some 100, source := "s", pairs := [] }
      "EUR" "USD" "EUR" "USD" rfl rfl rfl rfl).2.1 100 rfl (by norm_num),
   (get_rate_cache_policy 300 100
      { last_refresh := some 100, source := "s",
        pairs := [("EUR_USD", { rate := 2, updated_at := 100 })] }
      "EUR" "USD" "EUR" "USD" rfl rfl rfl rfl).2.2.2 100 { rate := 2, updated_at := 100 }
      rfl (by norm_num) rfl⟩

/-- C6: `RatesUsecase.get_rate` does not special-case `from == to`: on a fresh,
non-empty cache a lookup of `(X, X)` fails with the rate-unavailable error
unless an explicit `X_X` pair entry exists, and when one exists the stored rate
is returned as-is (it is not forced to 1). -/
theorem get_rate_identity_not_special (ttl now : ℤ) (data : RatesData) (x c : String)
    (last : ℤ)
    (hx : normalize_currency_code x = x)
    (hvalid : get_currency x = Except.ok c)
    (hlr : data.last_refresh = some last)
    (hfresh : now - last ≤ ttl) :
    (alookup (RatesUsecase.pair_key x x) data.pairs = none →
      RatesUsecase.get_rate ttl now data x x
        = Except.error
            (Err.apiRequestError ("Курс " ++ x ++ "→" ++ x ++ " недоступен. Выполните update-rates"))) ∧
    (∀ r, alookup (RatesUsecase.pair_key x x) data.pairs = some r →
      RatesUsecase.get_rate ttl now data x x = Except.ok (r.rate, r.updated_at)) := by
  constructor
  · intro hmiss
    simp [RatesUsecase.get_rate, RatesUsecase.is_fresh, hx, hvalid, hlr, hfresh, hmiss]
  · intro r hhit
    simp [RatesUsecase.get_rate, RatesUsecase.is_fresh, hx, hvalid, hlr, hfresh, hhit]

theorem get_rate_identity_not_special_witness :
    RatesUsecase.get_rate 300 0
        { last_refresh := some 0, source := "s",
          pairs := [("BTC_BTC", { rate := 2, updated_at := 0 })] } "BTC" "BTC"
      = Except.ok (2, 0) ∧
    RatesUsecase.get_rate 300 0 { last_refresh := some 0, source := "s", pairs := [] }
        "BTC" "BTC"
      = Except.error
          (Err.apiRequestError ("Курс " ++ "BTC" ++ "→" ++ "BTC" ++ " недоступен. Выполните update-rates")) :=
  ⟨(get_rate_identity_not_special 300 0
      { last_refresh := some 0, source := "s",
        pairs := [("BTC_BTC", { rate := 2, updated_at := 0 })] }
      "BTC" "BTC" 0 rfl rfl rfl (by norm_num)).2 { rate := 2, updated_at := 0 } rfl,
   (get_rate_identity_not_special 300 0
      { last_refresh := some 0, source := "s", pairs := [] }
      "BTC" "BTC" 0 rfl rfl rfl (by norm_num)).1 rfl⟩

/-! ## Portfolio valuation -/

theorem show_values_failure (ttl now : ℤ) (rates : RatesData) (base_code : String)
    (c : String) (w : Wallet) (e : Err) :
    ∀ l : List (String × Wallet), (c, w) ∈ l → c ≠ base_code →
      RatesUsecase.get_rate ttl now rates c base_code = Except.error e →
      ∃ e', show_values ttl now rates base_code l = Except.error e' := by
  intro l
  induction l with
  | nil => simp
  | cons head rest ih =>
    intro hmem hne hfail
    obtain ⟨c₀, w₀⟩ := head
    rcases List.mem_cons.mp hmem with heq | hmem'
    · rw [Prod.mk.injEq] at heq
      exact ⟨e, by simp [show_values, heq.1 ▸ hne, heq.1 ▸ hfail]⟩
    · by_cases hc : c₀ = base_code
      · obtain ⟨e', he'⟩ := ih hmem' hne hfail
        exact ⟨e', by simp [show_values, hc, he']⟩
      · cases hr : RatesUsecase.get_rate ttl now rates c₀ base_code with
        | error e₀ => exact ⟨e₀, by simp [show_values, hc, hr]⟩
        | ok r =>
          obtain ⟨e', he'⟩ := ih hmem' hne hfail
          exact ⟨e', by simp [show_values, hc, hr, he']⟩

theorem total_value_go_skips_failed (base : String) (c : String) (w : Wallet) (e : Err)
    (hne : c ≠ base) (hfail : ExchangeRates.get_rate c base = Except.error e) :
    ∀ l₁ l₂ : List (String × Wallet),
      total_value_go base (l₁ ++ (c, w) :: l₂) = total_value_go base (l₁ ++ l₂) := by
  intro l₁ l₂
  induction l₁ with
  | nil => simp [total_value_go, hne, hfail]
  | cons head rest ih =>
    obtain ⟨c₀, w₀⟩ := head
    simp [total_value_go, ih]

/-- C9 (amended): in `show_portfolio` a wallet whose code equals the base
contributes exactly its balance and any other wallet contributes
`balance * rate`, but a failed rate lookup for any listed wallet is *fatal*: it
aborts the whole `show_portfolio` call with an error instead of contributing 0.
The display-time partial-failure tolerance exists only in the lower-level
`Portfolio.get_total_value`, where a wallet whose `ExchangeRates` lookup fails
contributes 0 to the total while the remaining wallets are still valued. -/
theorem show_portfolio_partial_failure :
    (∀ (ttl now uid : ℤ) (db : DB) (base c₂ c : String) (w : Wallet) (e : Err),
      get_currency (normalize_currency_code base) = Except.ok c₂ →
      (c, w) ∈ (load_portfolio db.portfolios uid).wallets →
      c ≠ normalize_currency_code base →
      RatesUsecase.get_rate ttl now db.rates c (normalize_currency_code base)
        = Except.error e →
      ∃ e', PortfolioUsecase.show_portfolio ttl now (some uid) db base = Except.error e') ∧
    (∀ (ttl now : ℤ) (rates : RatesData) (base_code : String) (w : Wallet)
        (rest : List (String × Wallet)) (vs : List (String × ℚ)) (total : ℚ),
      show_values ttl now rates base_code rest = Except.ok (vs, total) →
      show_values ttl now rates base_code ((base_code, w) :: rest)
        = Except.ok ((base_code, w.balance) :: vs, w.balance + total)) ∧
    (∀ (ttl now : ℤ) (rates : RatesData) (base_code c : String) (w : Wallet) (r : ℚ × ℤ)
        (rest : List (String × Wallet)) (vs : List (String × ℚ)) (total : ℚ),
      c ≠ base_code →
      RatesUsecase.get_rate ttl now rates c base_code = Except.ok r →
      show_values ttl now rates base_code rest = Except.ok (vs, total) →
      show_values ttl now rates base_code ((c, w) :: rest)
        = Except.ok ((c, w.balance * r.1) :: vs, w.balance * r.1 + total)) ∧
    (∀ (base : String) (c : String) (w : Wallet) (e : Err)
        (l₁ l₂ : List (String × Wallet)),
      c ≠ base → ExchangeRates.get_rate c base = Except.error e →
      total_value_go base (l₁ ++ (c, w) :: l₂) = total_value_go base (l₁ ++ l₂)) := by
  refine ⟨?_, ?_, ?_, ?_⟩
  · intro ttl now uid db base c₂ c w e hb hmem hne hfail
    obtain ⟨e', he'⟩ :=
      show_values_failure ttl now db.rates (normalize_currency_code base) c w e
        (load_portfolio db.portfolios uid).wallets hmem hne hfail
    exact ⟨e', by simp [PortfolioUsecase.show_portfolio, require_user, hb, he']⟩
  · intro ttl now rates base_code w rest vs total htail
    simp [show_values, htail]
  · intro ttl now rates base_code c w r rest vs total hne hr htail
    simp [show_values, hne, hr, htail]
  · intro base c w e l₁ l₂ hne hfail
    exact total_value_go_skips_failed base c w e hne hfail l₁ l₂

/-- A store whose fresh cache is missing the `EUR_USD` pair while user 1 holds
an EUR wallet. -/
def db_missing_pair : DB :=
  { portfolios := [{ user_id := 1, wallets := [("EUR", 10)] }],
    rates := { last_refresh := some 0, source := "s", pairs := [] } }

/-- C9 counterexample: one wallet whose rate lookup fails does not contribute 0
while the call continues — `show_portfolio` fails as a whole with the
propagated `ApiRequestError`. -/
theorem show_portfolio_failure_not_tolerated :
    PortfolioUsecase.show_portfolio 300 0 (some 1) db_missing_pair "USD"
      = Except.error
          (Err.apiRequestError "Курс EUR→USD недоступен. Выполните update-rates") := by
  rfl

theorem show_portfolio_partial_failure_witness :
    (∃ e', PortfolioUsecase.show_portfolio 300 0 (some 2)
        { portfolios := [{ user_id := 2, wallets := [("EUR", 10)] }],
          rates := { last_refresh := some 0, source := "s", pairs := [] } } "USD"
      = Except.error e') ∧
    total_value_go "USD"
        ([("USD", { currency_code := "USD", balance := 5 })]
          ++ ("XYZ", { currency_code := "XYZ", balance := 7 }) :: [])
      = total_value_go "USD" ([("USD", { currency_code := "USD", balance := 5 })] ++ []) :=
  ⟨show_portfolio_partial_failure.1 300 0 2
      { portfolios := [{ user_id := 2, wallets := [("EUR", 10)] }],
        rates := { last_refresh := some 0, source := "s", pairs := [] } }
      "USD" "USD" "EUR" { currency_code := "EUR", balance := 10 }
      (Err.apiRequestError "Курс EUR→USD недоступен. Выполните update-rates")
      rfl (by exact List.mem_singleton.mpr rfl) (by decide) rfl,
   show_portfolio_partial_failure.2.2.2 "USD" "XYZ"
      { currency_code := "XYZ", balance := 7 } (Err.currencyNotFound "XYZ")
      [("USD", { currency_code := "USD", balance := 5 })] [] (by decide) rfl⟩

/-! ## Rate updater pair derivation -/

theorem alookup_append {β : Type} (k : String) (l₁ l₂ : List (String × β)) :
    alookup k (l₁ ++ l₂)
      = match alookup k l₁ with
        | some v => some v
        | none => alookup k l₂ := by
  induction l₁ with
  | nil => simp [alookup]
  | cons head rest ih =>
    obtain ⟨k', v⟩ := head
    by_cases h : k' = k
    · simp [alookup, h]
    · simp [alookup, h, ih]

/-- On the five supported codes the `frm_to` pair keys are injective in both
components (no supported code contains an underscore). -/
theorem supported_pair_key_inj :
    ∀ a ∈ RatesUpdater.supported, ∀ b ∈ RatesUpdater.supported,
      ∀ c ∈ RatesUpdater.supported, ∀ d ∈ RatesUpdater.supported,
        a ++ "_" ++ b = c ++ "_" ++ d → a = c ∧ b = d := by
  decide

theorem supported_nodup : RatesUpdater.supported.Nodup := by
  decide

/-- The record the inner loop derives for an ordered pair, when it derives
one. -/
def derived_rate (rates : List (String × ℚ)) (u : ℤ) (f t : String) : Option RateRec :=
  match alookup f rates, alookup t rates with
  | some rf, some rt => some { rate := rt / rf, updated_at := u }
  | _, _ => none

/-- The entry the loop body contributes for an ordered pair when it does not
raise: the pure characterization of `RatesUpdater.pair_entry` used by the
proofs about successful updates. -/
def derived_entry (rates : List (String × ℚ)) (u : ℤ) (frm toc : String) :
    Option (String × RateRec) :=
  if frm = toc then none
  else
    match alookup frm rates, alookup toc rates with
    | some rf, some rt => some (frm ++ "_" ++ toc, { rate := rt / rf, updated_at := u })
    | _, _ => none

/-- The table a successful update derives (see `build_pairs_ok`). -/
def derived_table (rates : List (String × ℚ)) (u : ℤ) : List (String × RateRec) :=
  RatesUpdater.supported.flatMap
    (fun frm => RatesUpdater.supported.filterMap (derived_entry rates u frm))

/-- A non-raising loop-body iteration contributes exactly its `derived_entry`. -/
theorem pair_entry_ok (rates : List (String × ℚ)) (u : ℤ) (frm toc : String)
    (o : Option (String × RateRec))
    (h : RatesUpdater.pair_entry rates u frm toc = Except.ok o) :
    derived_entry rates u frm toc = o := by
  unfold RatesUpdater.pair_entry at h
  unfold derived_entry
  by_cases heq : frm = toc
  · rw [if_pos heq] at h
    rw [if_pos heq]
    exact Except.ok.inj h
  · rw [if_neg heq] at h
    rw [if_neg heq]
    cases h1 : alookup frm rates with
    | none =>
      rw [h1] at h
      exact Except.ok.inj h
    | some rf =>
      rw [h1] at h
      cases h2 : alookup toc rates with
      | none =>
        rw [h2] at h
        exact Except.ok.inj h
      | some rt =>
        rw [h2] at h
        have h' : (if rf = 0 then
              (Except.error (Err.zeroDivisionError "float division by zero") :
                Except Err (Option (String × RateRec)))
            else Except.ok (some (frm ++ "_" ++ toc, { rate := rt / rf, updated_at := u })))
            = Except.ok o := h
        show some (frm ++ "_" ++ toc, { rate := rt / rf, updated_at := u }) = o
        by_cases hz : rf = 0
        · rw [if_pos hz] at h'
          exact absurd h' (by simp)
        · rw [if_neg hz] at h'
          exact Except.ok.inj h' 

theorem inner_loop_ok (rates : List (String × ℚ)) (u : ℤ) (frm : String) :
    ∀ (ts : List String) (l : List (String × RateRec)),
      RatesUpdater.inner_loop rates u frm ts = Except.ok l →
      l = ts.filterMap (derived_entry rates u frm) := by
  intro ts
  induction ts with
  | nil =>
    intro l h
    simp only [RatesUpdater.inner_loop] at h
    simp [← Except.ok.inj h]
  | cons toc rest ih =>
    intro l h
    rw [List.filterMap_cons]
    cases hpe : RatesUpdater.pair_entry rates u frm toc with
    | error e => simp [RatesUpdater.inner_loop, hpe] at h
    | ok o =>
      cases o with
      | none =>
        simp only [RatesUpdater.inner_loop, hpe] at h
        rw [pair_entry_ok rates u frm toc none hpe]
        exact ih l h
      | some kv =>
        rw [pair_entry_ok rates u frm toc (some kv) hpe]
        cases htail : RatesUpdater.inner_loop rates u frm rest with
        | error e => simp [RatesUpdater.inner_loop, hpe, htail] at h
        | ok tail =>
          simp only [RatesUpdater.inner_loop, hpe, htail] at h
          rw [← Except.ok.inj h, ih tail htail]

theorem outer_loop_ok (rates : List (String × ℚ)) (u : ℤ) :
    ∀ (fs : List String) (l : List (String × RateRec)),
      RatesUpdater.outer_loop rates u fs = Except.ok l →
      l = fs.flatMap
        (fun frm => RatesUpdater.supported.filterMap (derived_entry rates u frm)) := by
  intro fs
  induction fs with
  | nil =>
    intro l h
    simp only [RatesUpdater.outer_loop] at h
    simp [← Except.ok.inj h]
  | cons frm rest ih =>
    intro l h
    rw [List.flatMap_cons]
    cases hchunk : RatesUpdater.inner_loop rates u frm RatesUpdater.supported with
    | error e => simp [RatesUpdater.outer_loop, hchunk] at h
    | ok chunk =>
      cases htail : RatesUpdater.outer_loop rates u rest with
      | error e => simp [RatesUpdater.outer_loop, hchunk, htail] at h
      | ok tail =>
        simp only [RatesUpdater.outer_loop, hchunk, htail] at h
        rw [← Except.ok.inj h,
          inner_loop_ok rates u frm RatesUpdater.supported chunk hchunk, ih tail htail]

/-- A successful run of the nested loops produces exactly the derived table; a
zero divisor instead aborts the whole update before anything is persisted. -/
theorem build_pairs_ok (rates : List (String × ℚ)) (u : ℤ)
    (pairs : List (String × RateRec))
    (h : RatesUpdater.build_pairs rates u = Except.ok pairs) :
    pairs = derived_table rates u :=
  outer_loop_ok rates u RatesUpdater.supported pairs h

theorem derived_entry_eq_some (rates : List (String × ℚ)) (u : ℤ) (frm toc : String)
    (kv : String × RateRec) :
    derived_entry rates u frm toc = some kv ↔
      frm ≠ toc ∧ ∃ rf rt, alookup frm rates = some rf ∧ alookup toc rates = some rt ∧
        kv = (frm ++ "_" ++ toc, { rate := rt / rf, updated_at := u }) := by
  unfold derived_entry
  split
  · simp_all
  · rename_i hne
    cases h1 : alookup frm rates with
    | none => simp [hne]
    | some rf =>
      cases h2 : alookup toc rates with
      | none => simp [hne]
      | some rt => simp [hne, eq_comm]

theorem inner_lookup_ne (rates : List (String × ℚ)) (u : ℤ) (f t frm : String)
    (hf : f ∈ RatesUpdater.supported) (ht : t ∈ RatesUpdater.supported)
    (hfrm : frm ∈ RatesUpdater.supported) (hne : frm ≠ f) :
    ∀ ts : List String, (∀ x ∈ ts, x ∈ RatesUpdater.supported) →
      alookup (f ++ "_" ++ t)
        (ts.filterMap (derived_entry rates u frm)) = none := by
  intro ts
  induction ts with
  | nil => intro _; simp [alookup]
  | cons toc rest ih =>
    intro hsub
    have htoc : toc ∈ RatesUpdater.supported := hsub toc (List.mem_cons_self toc rest)
    have hrest : ∀ x ∈ rest, x ∈ RatesUpdater.supported :=
      fun x hx => hsub x (List.mem_cons_of_mem toc hx)
    rw [List.filterMap_cons]
    cases hpe : derived_entry rates u frm toc with
    | none => exact ih hrest
    | some kv =>
      obtain ⟨-, rf, rt, -, -, hkv⟩ := (derived_entry_eq_some rates u frm toc kv).mp hpe
      have hkey : ¬ (frm ++ "_" ++ toc = f ++ "_" ++ t) := fun hcontra =>
        hne (supported_pair_key_inj frm hfrm toc htoc f hf t ht hcontra).1
      rw [hkv]
      simpa [alookup, hkey] using ih hrest

theorem inner_lookup_not_mem (rates : List (String × ℚ)) (u : ℤ) (f t : String)
    (hf : f ∈ RatesUpdater.supported) (ht : t ∈ RatesUpdater.supported) :
    ∀ ts : List String, (∀ x ∈ ts, x ∈ RatesUpdater.supported) → t ∉ ts →
      alookup (f ++ "_" ++ t)
        (ts.filterMap (derived_entry rates u f)) = none := by
  intro ts
  induction ts with
  | nil => intro _ _; simp [alookup]
  | cons toc rest ih =>
    intro hsub hnm
    have htoc : toc ∈ RatesUpdater.supported := hsub toc (List.mem_cons_self toc rest)
    have hrest : ∀ x ∈ rest, x ∈ RatesUpdater.supported :=
      fun x hx => hsub x (List.mem_cons_of_mem toc hx)
    have htne : toc ≠ t := fun h => hnm (h ▸ List.mem_cons_self toc rest)
    have hnm' : t ∉ rest := fun h => hnm (List.mem_cons_of_mem toc h)
    rw [List.filterMap_cons]
    cases hpe : derived_entry rates u f toc with
    | none => exact ih hrest hnm'
    | some kv =>
      obtain ⟨-, rf, rt, -, -, hkv⟩ := (derived_entry_eq_some rates u f toc kv).mp hpe
      have hkey : ¬ (f ++ "_" ++ toc = f ++ "_" ++ t) := fun hcontra =>
        htne (supported_pair_key_inj f hf toc htoc f hf t ht hcontra).2
      rw [hkv]
      simpa [alookup, hkey] using ih hrest hnm'

theorem inner_lookup_hit (rates : List (String × ℚ)) (u : ℤ) (f t : String)
    (hf : f ∈ RatesUpdater.supported) (ht : t ∈ RatesUpdater.supported) (hne : f ≠ t) :
    ∀ ts : List String, (∀ x ∈ ts, x ∈ RatesUpdater.supported) → ts.Nodup → t ∈ ts →
      alookup (f ++ "_" ++ t)
        (ts.filterMap (derived_entry rates u f)) = derived_rate rates u f t := by
  intro ts
  induction ts with
  | nil => intro _ _ hmem; exact absurd hmem (List.not_mem_nil t)
  | cons toc rest ih =>
    intro hsub hnd hmem
    have htoc : toc ∈ RatesUpdater.supported := hsub toc (List.mem_cons_self toc rest)
    have hrest : ∀ x ∈ rest, x ∈ RatesUpdater.supported :=
      fun x hx => hsub x (List.mem_cons_of_mem toc hx)
    obtain ⟨hhead, htail⟩ := List.nodup_cons.mp hnd
    rw [List.filterMap_cons]
    by_cases hteq : toc = t
    · subst hteq
      cases hpe : derived_entry rates u f toc with
      | some kv =>
        obtain ⟨-, rf, rt, h1, h2, hkv⟩ := (derived_entry_eq_some rates u f toc kv).mp hpe
        rw [hkv]
        simp [alookup, derived_rate, h1, h2]
      | none =>
        have hdr : derived_rate rates u f toc = none := by
          cases h1 : alookup f rates with
          | none => simp [derived_rate, h1]
          | some rf =>
            cases h2 : alookup toc rates with
            | none => simp [derived_rate, h1, h2]
            | some rt =>
              have hsome := (derived_entry_eq_some rates u f toc
                  (f ++ "_" ++ toc, { rate := rt / rf, updated_at := u })).mpr
                ⟨hne, rf, rt, h1, h2, rfl⟩
              rw [hsome] at hpe
              exact absurd hpe (by simp)
        rw [hdr]
        exact inner_lookup_not_mem rates u f toc hf ht rest hrest hhead
    · have hmem' : t ∈ rest := by
        rcases List.mem_cons.mp hmem with h | h
        · exact absurd h.symm hteq
        · exact h
      cases hpe : derived_entry rates u f toc with
      | none => exact ih hrest htail hmem'
      | some kv =>
        obtain ⟨-, rf, rt, -, -, hkv⟩ := (derived_entry_eq_some rates u f toc kv).mp hpe
        have hkey : ¬ (f ++ "_" ++ toc = f ++ "_" ++ t) := fun hcontra =>
          hteq (supported_pair_key_inj f hf toc htoc f hf t ht hcontra).2
        rw [hkv]
        simpa [alookup, hkey] using ih hrest htail hmem'

theorem build_lookup_not_mem (rates : List (String × ℚ)) (u : ℤ) (f t : String)
    (hf : f ∈ RatesUpdater.supported) (ht : t ∈ RatesUpdater.supported) :
    ∀ fs : List String, (∀ x ∈ fs, x ∈ RatesUpdater.supported) → f ∉ fs →
      alookup (f ++ "_" ++ t)
        (fs.flatMap
          (fun frm => RatesUpdater.supported.filterMap (derived_entry rates u frm)))
        = none := by
  intro fs
  induction fs with
  | nil => intro _ _; simp [alookup]
  | cons frm rest ih =>
    intro hsub hnm
    have hfrm : frm ∈ RatesUpdater.supported := hsub frm (List.mem_cons_self frm rest)
    have hrest : ∀ x ∈ rest, x ∈ RatesUpdater.supported :=
      fun x hx => hsub x (List.mem_cons_of_mem frm hx)
    have hfne : frm ≠ f := fun h => hnm (h ▸ List.mem_cons_self frm rest)
    have hnm' : f ∉ rest := fun h => hnm (List.mem_cons_of_mem frm h)
    rw [List.flatMap_cons, alookup_append,
      inner_lookup_ne rates u f t frm hf ht hfrm hfne RatesUpdater.supported (fun x hx => hx)]
    exact ih hrest hnm'

theorem build_lookup_gen (rates : List (String × ℚ)) (u : ℤ) (f t : String)
    (hf : f ∈ RatesUpdater.supported) (ht : t ∈ RatesUpdater.supported) (hne : f ≠ t) :
    ∀ fs : List String, (∀ x ∈ fs, x ∈ RatesUpdater.supported) → fs.Nodup → f ∈ fs →
      alookup (f ++ "_" ++ t)
        (fs.flatMap
          (fun frm => RatesUpdater.supported.filterMap (derived_entry rates u frm)))
        = derived_rate rates u f t := by
  intro fs
  induction fs with
  | nil => intro _ _ hmem; exact absurd hmem (List.not_mem_nil f)
  | cons frm rest ih =>
    intro hsub hnd hmem
    have hfrm : frm ∈ RatesUpdater.supported := hsub frm (List.mem_cons_self frm rest)
    have hrest : ∀ x ∈ rest, x ∈ RatesUpdater.supported :=
      fun x hx => hsub x (List.mem_cons_of_mem frm hx)
    obtain ⟨hhead, htail⟩ := List.nodup_cons.mp hnd
    rw [List.flatMap_cons, alookup_append]
    by_cases hfeq : frm = f
    · subst hfeq
      rw [inner_lookup_hit rates u frm t hf ht hne RatesUpdater.supported
        (fun x hx => hx) supported_nodup ht]
      cases hdr : derived_rate rates u frm t with
      | some v => rfl
      | none =>
        exact build_lookup_not_mem rates u frm t hf ht rest hrest hhead
    · have hmem' : f ∈ rest := by
        rcases List.mem_cons.mp hmem with h | h
        · exact absurd h.symm hfeq
        · exact h
      rw [inner_lookup_ne rates u f t frm hf ht hfrm hfeq RatesUpdater.supported
        (fun x hx => hx)]
      exact ih hrest htail hmem'

theorem derived_table_lookup (rates : List (String × ℚ)) (u : ℤ) (f t : String)
    (hf : f ∈ RatesUpdater.supported) (ht : t ∈ RatesUpdater.supported) (hne : f ≠ t) :
    alookup (f ++ "_" ++ t) (derived_table rates u) = derived_rate rates u f t :=
  build_lookup_gen rates u f t hf ht hne RatesUpdater.supported
    (fun x hx => hx) supported_nodup hf

theorem derived_table_updated_at (rates : List (String × ℚ)) (u : ℤ) :
    ∀ (k : String) (r : RateRec), (k, r) ∈ derived_table rates u →
      r.updated_at = u := by
  intro k r hmem
  unfold derived_table at hmem
  rw [List.mem_flatMap] at hmem
  obtain ⟨frm, -, hmem2⟩ := hmem
  rw [List.mem_filterMap] at hmem2
  obtain ⟨toc, -, hpe⟩ := hmem2
  obtain ⟨-, rf, rt, -, -, hkv⟩ := (derived_entry_eq_some rates u frm toc (k, r)).mp hpe
  rw [Prod.mk.injEq] at hkv
  rw [hkv.2]

/-- C8: on a successful rate update with a valid base (the nested loop raised
no `ZeroDivisionError`), `update` persists exactly the derived table with
`last_refresh` set to the single refresh instant; after forcing the base entry
of the snapshot to 1, every ordered supported pair with both sides present is
stored under its `frm_to` key with rate `rates[to] / rates[frm]`; pairs with
either side missing are silently omitted; and every persisted pair carries
that same instant. -/
theorem update_pairs_correct (snap : Snapshot) (now_iso : ℤ) (base : String) (c : String)
    (pairs : List (String × RateRec))
    (hb : get_currency (normalize_currency_code base) = Except.ok c)
    (hok : RatesUpdater.build_pairs (aset (normalize_currency_code base) 1 snap.rates) now_iso
             = Except.ok pairs) :
    RatesUpdater.update (some snap) now_iso base
      = Except.ok { last_refresh := some now_iso, source := snap.source, pairs := pairs } ∧
    (∀ frm toc (rf rt : ℚ), frm ∈ RatesUpdater.supported → toc ∈ RatesUpdater.supported →
      frm ≠ toc →
      alookup frm (aset (normalize_currency_code base) 1 snap.rates) = some rf →
      alookup toc (aset (normalize_currency_code base) 1 snap.rates) = some rt →
      alookup (frm ++ "_" ++ toc) pairs = some { rate := rt / rf, updated_at := now_iso }) ∧
    (∀ frm toc, frm ∈ RatesUpdater.supported → toc ∈ RatesUpdater.supported → frm ≠ toc →
      (alookup frm (aset (normalize_currency_code base) 1 snap.rates) = none ∨
        alookup toc (aset (normalize_currency_code base) 1 snap.rates) = none) →
      alookup (frm ++ "_" ++ toc) pairs = none) ∧
    (∀ (k : String) (r : RateRec), (k, r) ∈ pairs → r.updated_at = now_iso) := by
  have hpairs : pairs
      = derived_table (aset (normalize_currency_code base) 1 snap.rates) now_iso :=
    build_pairs_ok _ now_iso pairs hok
  have hv : validate_codes RatesUpdater.supported = Except.ok () := rfl
  refine ⟨?_, ?_, ?_, ?_⟩
  · simp [RatesUpdater.update, hb, hv, hok]
  · intro frm toc rf rt hfm htm hne h1 h2
    rw [hpairs, derived_table_lookup _ now_iso frm toc hfm htm hne]
    simp [derived_rate, h1, h2]
  · intro frm toc hfm htm hne hmiss
    rw [hpairs, derived_table_lookup _ now_iso frm toc hfm htm hne]
    rcases hmiss with h | h
    · simp [derived_rate, h]
    · cases h1 : alookup frm (aset (normalize_currency_code base) 1 snap.rates) with
      | none => simp [derived_rate, h1]
      | some rf => simp [derived_rate, h1, h]
  · intro k r hmem
    exact derived_table_updated_at _ now_iso k r (hpairs ▸ hmem)

/-- The table the update derives from the snapshot `{EUR: 2, BTC: 8}` with base
USD at instant 42, in loop order. -/
def pairs_usd_eur_btc : List (String × RateRec) :=
  [("USD_EUR", { rate := 2 / 1, updated_at := 42 }),
   ("USD_BTC", { rate := 8 / 1, updated_at := 42 }),
   ("EUR_USD", { rate := 1 / 2, updated_at := 42 }),
   ("EUR_BTC", { rate := 8 / 2, updated_at := 42 }),
   ("BTC_USD", { rate := 1 / 8, updated_at := 42 }),
   ("BTC_EUR", { rate := 2 / 8, updated_at := 42 })]

theorem update_pairs_correct_witness :
    RatesUpdater.update (some { rates := [("EUR", 2), ("BTC", 8)], source := "api" }) 42 "USD"
      = Except.ok
          { last_refresh := some 42, source := "api", pairs := pairs_usd_eur_btc } ∧
    alookup ("EUR" ++ "_" ++ "BTC") pairs_usd_eur_btc
      = some { rate := 8 / 2, updated_at := 42 } ∧
    alookup ("EUR" ++ "_" ++ "RUB") pairs_usd_eur_btc = none :=
  ⟨(update_pairs_correct { rates := [("EUR", 2), ("BTC", 8)], source := "api" } 42
      "USD" "USD" pairs_usd_eur_btc rfl rfl).1,
   (update_pairs_correct { rates := [("EUR", 2), ("BTC", 8)], source := "api" } 42
      "USD" "USD" pairs_usd_eur_btc rfl rfl).2.1 "EUR" "BTC" 2 8
      (by decide) (by decide) (by decide) rfl rfl,
   (update_pairs_correct { rates := [("EUR", 2), ("BTC", 8)], source := "api" } 42
      "USD" "USD" pairs_usd_eur_btc rfl rfl).2.2.1 "EUR" "RUB"
      (by decide) (by decide) (by decide) (Or.inr rfl)⟩

end ValutaTrade
